import Mathlib

set_option maxRecDepth 4000

/-!
# Verification of the load-monitoring dashboard core (`src/app.py`)

Shallow embedding of the incremental sync, fetch name-selection, merge,
aggregation and year-over-year pipeline of the repository's `app.py`.

Modelling conventions:
* A timestamp is an integer (Unix seconds, UTC); one day is `86400` seconds.
* A load value is an exact rational `ℚ` (the CSV stores decimal floats; no
  claim here depends on float rounding).
* An observation is a `(timestamp, value)` pair; a pandas DataFrame with
  columns `Zeitstempel`/`Last_GW` is a `List Obs` in row order.
* A pandas value that is either NaN or absent from the index is modelled as
  `none`: under pandas index-aligned `+` (the only consumer here) the two
  behave identically, both producing NaN.
* Remote I/O and file I/O are passed in as explicit outcomes
  (`Except Unit _` for success/failure, `Option` for file existence).
-/

/-- An observation: `(Zeitstempel, Last_GW)` — Unix-second timestamp and load. -/
abbrev Obs := ℤ × ℚ

/-- `86400` seconds: `timedelta(days=1)` from `app.py` line 130. -/
def oneDay : ℤ := 86400

/-- `pd.Timestamp("2015-01-01", tz='UTC')` (line 128) as Unix seconds. -/
def epoch2015 : ℤ := 1420070400

/-! ## RemoteSeriesFetcher: `fetch_data_from_api` (lines 55–107) -/

/-- One named sub-series of the API response: an element of
`data_json['production_types']` / `data_json['data']`, i.e. a JSON object
`{name: string, data: number[]}`. -/
structure Entry where
  name : String
  data : List ℚ
deriving DecidableEq

/-- Lower-cased characters of a name: `entry.get('name', '').lower()` (line 81). -/
def lowerName (s : String) : List Char := s.data.map Char.toLower

/-- `needle` is a prefix of `hay` (on characters). -/
def listStartsWith : List Char → List Char → Bool
  | [], _ => true
  | _ :: _, [] => false
  | a :: as, b :: bs => a == b && listStartsWith as bs

/-- Python's substring test `needle in hay` on characters. -/
def listContainsSub (needle : List Char) : List Char → Bool
  | [] => listStartsWith needle []
  | c :: rest => listStartsWith needle (c :: rest) || listContainsSub needle rest

/-- Substring test against a string literal needle. -/
def strContains (needle : String) (hay : List Char) : Bool :=
  listContainsSub needle.data hay

/-- Line 82: `'residual' in name or 'pumped' in name or 'share' in name`. -/
def excludedName (n : List Char) : Bool :=
  strContains "residual" n || strContains "pumped" n || strContains "share" n

/-- Line 84: `name in ['load', 'last', 'consommation', 'total load',
'electricity consumption']`. -/
def exactName (n : List Char) : Bool :=
  n == "load".data || n == "last".data || n == "consommation".data ||
    n == "total load".data || n == "electricity consumption".data

/-- Line 87: `'load' in name or 'consumption' in name`. -/
def fuzzyName (n : List Char) : Bool :=
  strContains "load" n || strContains "consumption" n

/-- The `for entry in source` loop of lines 80–88, with `acc` the current
`load_vals`.  An exact match assigns and `break`s; a fuzzy match assigns only
when `load_vals` is still empty (`if not load_vals`, line 88). -/
def selectAux : List ℚ → List Entry → List ℚ
  | acc, [] => acc
  | acc, e :: rest =>
    let n := lowerName e.name
    if excludedName n then selectAux acc rest
    else if exactName n then e.data
    else if fuzzyName n then selectAux (if acc.isEmpty then e.data else acc) rest
    else selectAux acc rest

/-- The whole name-selection loop, starting from `load_vals = []` (line 77). -/
def selectLoadVals (source : List Entry) : List ℚ :=
  selectAux [] source

/-- One year's parsed API response: the named sub-series list plus the shared
`unix_seconds` array. -/
structure ApiResponse where
  source : List Entry
  unixSeconds : List ℤ
deriving DecidableEq

/-- Lines 90–96: `if timestamps and load_vals`, truncate both arrays to the
shorter length (`min_len`) and zip them into rows; otherwise the year
contributes no rows.  `List.zip` truncates to the shorter list exactly as the
`[:min_len]` slices do. -/
def parseYearResponse (r : ApiResponse) : List Obs :=
  let lv := selectLoadVals r.source
  if r.unixSeconds.isEmpty || lv.isEmpty then []
  else r.unixSeconds.zip lv

/-- One year of the loop body (lines 70–99): the `try`/`except` makes a failed
remote call or parse (`Except.error`) contribute nothing (`pass`, line 99). -/
def fetchYear : Except Unit ApiResponse → List Obs
  | Except.error _ => []
  | Except.ok r => parseYearResponse r

/-- `fetch_data_from_api` over the per-year outcomes (lines 66–107):
the surviving years' rows are concatenated in year order (`pd.concat`). -/
def fetch_data_from_api (years : List (Except Unit ApiResponse)) : List Obs :=
  (years.map fetchYear).flatten

/-! ## SyncEngine: `load_and_update_single_country` (lines 110–142) -/

/-- Keep-first deduplication by timestamp:
`drop_duplicates(subset=['Zeitstempel'])` (line 137), which keeps the first
row for each timestamp in the concatenated order. `seen` is the set of
timestamps already kept. -/
def dedupKeysAux (seen : List ℤ) : List Obs → List Obs
  | [] => []
  | p :: rest =>
    if p.1 ∈ seen then dedupKeysAux seen rest
    else p :: dedupKeysAux (p.1 :: seen) rest

/-- `drop_duplicates(subset=['Zeitstempel'])` from an empty seen-set. -/
def dedupKeys (l : List Obs) : List Obs :=
  dedupKeysAux [] l

/-- Comparison by timestamp, the sort key of `sort_values('Zeitstempel')`. -/
abbrev tsLe (p q : Obs) : Prop := p.1 ≤ q.1

instance : IsTotal Obs tsLe := ⟨fun a b => Int.le_total a.1 b.1⟩

instance : IsTrans Obs tsLe := ⟨fun _ _ _ h₁ h₂ => le_trans h₁ h₂⟩

/-- Lines 136–138: `pd.concat([full_df, new_data])`, then
`drop_duplicates(subset=['Zeitstempel'])`, then `sort_values('Zeitstempel')`.
After deduplication the timestamps are pairwise distinct, so any comparison
sort (pandas' quicksort included) yields this unique order; we use
`List.insertionSort`. -/
def mergeSeries (stored newData : List Obs) : List Obs :=
  List.insertionSort tsLe (dedupKeys (stored ++ newData))

/-- `full_df['Zeitstempel'].max()` (line 121). -/
def listMax : List ℤ → Option ℤ
  | [] => none
  | x :: xs => some (match listMax xs with | none => x | some m => max x m)

/-- `last_stored_date` of a series: `max` of its timestamps, `none` when the
series is empty (lines 120–121). -/
def latestTimestamp (s : List Obs) : Option ℤ :=
  listMax (s.map Prod.fst)

/-- Lines 115–123: the benign outcomes of reading the per-entity CSV.
`none` — the file does not exist (line 116); `some (Except.error _)` —
`pd.read_csv` itself raised on line 118, so `full_df` keeps the empty
`pd.DataFrame()` it was initialised to on line 112 and `st.error` is shown;
`some (Except.ok s)` — both the read and the timestamp parse on line 119
succeeded, giving rows `s`.  The remaining outcome — `read_csv` succeeds but
`pd.to_datetime` on line 119 raises, which leaves `full_df` rebound to the
raw unparsed frame — is modelled by `CsvRead`/`load_and_update_csv` below.
Returns `(full_df, error_reported)`. -/
def readLocal : Option (Except Unit (List Obs)) → List Obs × Bool
  | none => ([], false)
  | some (Except.error _) => ([], true)
  | some (Except.ok s) => (s, false)

/-- Outcome of one `load_and_update_single_country` run:
`df` — the returned DataFrame; `written` — `some s` when the code reached
`to_csv` and wrote `s`, `none` when no write happened; `fetched` — the
`(start_date, today)` range passed to `fetch_data_from_api`, `none` when no
network call was made; `errorReported` — whether `st.error` fired for the
CSV read. -/
structure SyncResult where
  df : List Obs
  written : Option (List Obs)
  fetched : Option (ℤ × ℤ)
  errorReported : Bool
deriving DecidableEq

/-- Lines 126–131: `start_date = 2015-01-01` when there is no stored
timestamp, else `last_stored_date + timedelta(days=1)`. -/
def computeStart : Option ℤ → ℤ
  | none => epoch2015
  | some l => l + oneDay

/-- Lines 125–142 after the CSV read: `today` is
`pd.Timestamp.now(tz='UTC').normalize()`; fetch only `if start_date <= today`;
merge and write only `if not new_data.empty`. `f` is the remote source:
`f start today` is what `fetch_data_from_api` returns for that range. -/
def syncCore (stored : List Obs) (today : ℤ) (f : ℤ → ℤ → List Obs) :
    List Obs × Option (List Obs) × Option (ℤ × ℤ) :=
  let start := computeStart (latestTimestamp stored)
  if start ≤ today then
    let newData := f start today
    if newData.isEmpty then (stored, none, some (start, today))
    else (mergeSeries stored newData, some (mergeSeries stored newData), some (start, today))
  else (stored, none, none)

/-- `load_and_update_single_country` (lines 110–142) over the benign read
outcomes: CSV read outcome, then gap computation, conditional fetch, merge
and write.  `load_and_update_csv` below extends this to the read outcome in
which the timestamp parse fails after a successful `read_csv`; the theorem
`load_and_update_csv_benign` proves this function is exactly the benign
fragment of that full model. -/
def load_and_update_single_country (read : Option (Except Unit (List Obs)))
    (today : ℤ) (f : ℤ → ℤ → List Obs) : SyncResult :=
  let r := readLocal read
  let c := syncCore r.1 today f
  ⟨c.1, c.2.1, c.2.2, r.2⟩

/-- The per-entity file after a sync: unchanged when the code never reached
`to_csv`, else exactly the written series (the CSV serialization of a series
is deterministic, so equal series mean byte-identical files). -/
def fileAfter (before : Option (List Obs)) (r : SyncResult) : Option (List Obs) :=
  match r.written with
  | none => before
  | some s => some s

/-! ## Aggregator: `load_eu_aggregated_data` (lines 145–189) -/

/-- Hour bucket of a Unix-second timestamp (`resample('1h')` floors to the
hour; `ediv` is floor division for the positive divisor `3600`). -/
def floorHour (t : ℤ) : ℤ :=
  Int.ediv t 3600

/-- `temp_df.resample('1h').mean()` (line 167) viewed as hour-index → value:
the mean of the samples in the hour bucket, `none` when the bucket holds no
sample (pandas makes such a bucket NaN inside the series' range and absent
outside it; both behave as NaN under index-aligned `+`, so both are `none`
here). -/
def resample1h (s : List Obs) : ℤ → Option ℚ := fun h =>
  let bucket := (s.filter (fun p => floorHour p.1 == h)).map Prod.snd
  if bucket.isEmpty then none else some (bucket.sum / (bucket.length : ℚ))

/-- pandas `df1 + df2` on aligned single-column frames: the value at a label
is present only when both operands have a (non-NaN) value there — a label
missing from either index, or NaN in either frame, yields NaN. -/
def addHourly (f g : ℤ → Option ℚ) : ℤ → Option ℚ := fun t =>
  match f t, g t with
  | some a, some b => some (a + b)
  | _, _ => none

/-- `sum(df_list)` (line 184): Python's builtin `sum` folds `+` starting from
`0`; `0 + df` is `df` elementwise, so this is a left fold of pandas `+` over
the list. An empty list never reaches `sum` (line 178 returns early). -/
def sumHourly : List (ℤ → Option ℚ) → (ℤ → Option ℚ)
  | [] => fun _ => none
  | f :: fs => fs.foldl addHourly f

/-- `load_eu_aggregated_data` (lines 145–189): one file outcome per included
country code (all configured codes except `'ch'`, line 150); files that do
not exist (line 159) or fail to parse (line 170) are skipped, the rest are
resampled to the 1-hour grid and summed with `sum(df_list)`. -/
def load_eu_aggregated_data (files : List (Option (Except Unit (List Obs)))) :
    ℤ → Option ℚ :=
  sumHourly (files.filterMap (fun f =>
    match f with
    | some (Except.ok s) => some (resample1h s)
    | _ => none))

/-! ## SeriesProcessor: year-over-year change (line 230) -/

/-- Forward fill (`ffill`/`pad`) with `last` the most recent present value. -/
def ffillAux : Option ℚ → List (Option ℚ) → List (Option ℚ)
  | _, [] => []
  | last, none :: xs => last :: ffillAux last xs
  | _, some v :: xs => some v :: ffillAux (some v) xs

/-- Forward fill of a daily value sequence. -/
def ffill (l : List (Option ℚ)) : List (Option ℚ) :=
  ffillAux none l

/-- `Series.pct_change(364)` at position `t` of the daily sequence `l`
(`df_daily` has a contiguous daily index, so position shift = 364 days).
pandas (2.x default `fill_method='pad'`) first forward-fills the series, then
computes `filled / filled.shift(364) - 1`; the first 364 positions and
positions whose forward-filled operand is still missing are NaN.  (pandas
divides floats, producing `inf` for a zero denominator; claims here only
concern non-zero denominators.) -/
def pctChange364At (l : List (Option ℚ)) (t : ℕ) : Option ℚ :=
  if t < 364 ∨ l.length ≤ t then none
  else
    match (ffill l).getD t none, (ffill l).getD (t - 364) none with
    | some a, some b => some (a / b - 1)
    | _, _ => none

/-- Line 230: `df_daily['Last_GW_7d_Mean'].pct_change(364) * 100` at
position `t`, taking `l` to be the `Last_GW_7d_Mean` daily sequence. -/
def veraenderungVorjahrProzentAt (l : List (Option ℚ)) (t : ℕ) : Option ℚ :=
  (pctChange364At l t).map (fun x => x * 100)

/-! ## Full CSV-read model, including the timestamp-parse failure path

Lines 115–123 run two fallible steps inside one `try`:
`full_df = pd.read_csv(csv_file_path)` (line 118) and then
`full_df['Zeitstempel'] = pd.to_datetime(full_df['Zeitstempel'], utc=True)`
(line 119).  Because `full_df` is rebound by the first step, a failure of
the *second* step (malformed timestamp strings, or a missing `Zeitstempel`
column raising `KeyError`) leaves `full_df` holding the raw unparsed frame,
not the empty `pd.DataFrame()` from line 112.  The definitions below model
all four outcomes and what the rest of the function then does with a raw
frame. -/

/-- The in-memory `full_df` after the `try` block: either a properly parsed
series, or the raw frame from `read_csv` whose `Zeitstempel` values are
still strings (the `pd.to_datetime` step raised). -/
inductive Frame where
  | parsed (s : List Obs)
  | raw (rows : List (String × ℚ))
deriving DecidableEq

/-- All four outcomes of lines 115–123: no file; `read_csv` raised
(`full_df` keeps its initial empty value); `read_csv` succeeded with rows
`rows` but the timestamp parse on line 119 raised (`full_df` = the raw
frame); both steps succeeded with parsed rows `s`. -/
inductive CsvRead where
  | missing
  | readError
  | parseError (rows : List (String × ℚ))
  | ok (s : List Obs)
deriving DecidableEq

/-- Lines 112–123 over all four read outcomes: the resulting `full_df` and
whether `st.error` fired. -/
def readCsv : CsvRead → Frame × Bool
  | CsvRead.missing => (Frame.parsed [], false)
  | CsvRead.readError => (Frame.parsed [], true)
  | CsvRead.parseError rows => (Frame.raw rows, true)
  | CsvRead.ok s => (Frame.parsed s, false)

/-- `last_stored_date` (lines 120–121): set only when the timestamp parse
succeeded and the frame is non-empty — when line 119 raises, execution jumps
to the `except` block before line 120, so it stays `None`. -/
def lastStored : Frame → Option ℤ
  | Frame.parsed s => latestTimestamp s
  | Frame.raw _ => none

/-- Outcome of one `load_and_update_single_country` run in the full model:
like `SyncResult`, but `df` may be the raw unparsed frame. -/
structure CsvSyncResult where
  df : Frame
  written : Option (List Obs)
  fetched : Option (ℤ × ℤ)
  errorReported : Bool
deriving DecidableEq

/-- `load_and_update_single_country` (lines 110–142) over the full read
model.  `Except.error ()` is the function raising: when `full_df` is a
non-empty raw frame and new data arrives, line 136's `pd.concat` puts string
timestamps and `pd.Timestamp` values into one object column — harmless for
`drop_duplicates`, but `sort_values('Zeitstempel')` (line 138) compares a
`str` with a `Timestamp` and raises an uncaught `TypeError`.  (A raw frame
with no rows contributes nothing to the concat, so the merge degenerates to
the fetched data.)  When no merge happens the raw frame is returned as is;
the caller's `df['Zeitstempel'].dt.tz_convert` (line 218) then raises on the
string column — the returned `Frame.raw` value records that poisoning. -/
def load_and_update_csv (read : CsvRead) (today : ℤ)
    (f : ℤ → ℤ → List Obs) : Except Unit CsvSyncResult :=
  let r := readCsv read
  let start := computeStart (lastStored r.1)
  if start ≤ today then
    let newData := f start today
    if newData.isEmpty then Except.ok ⟨r.1, none, some (start, today), r.2⟩
    else
      match r.1 with
      | Frame.parsed s =>
        Except.ok ⟨Frame.parsed (mergeSeries s newData), some (mergeSeries s newData),
          some (start, today), r.2⟩
      | Frame.raw rows =>
        if rows.isEmpty then
          Except.ok ⟨Frame.parsed (mergeSeries [] newData), some (mergeSeries [] newData),
            some (start, today), r.2⟩
        else Except.error ()
  else Except.ok ⟨r.1, none, none, r.2⟩

/-- Embedding of the benign read outcomes into the full read model. -/
def embedRead : Option (Except Unit (List Obs)) → CsvRead
  | none => CsvRead.missing
  | some (Except.error _) => CsvRead.readError
  | some (Except.ok s) => CsvRead.ok s

/-! ## Helper lemmas -/

theorem isEmpty_false_of_ne {α : Type} {l : List α} (h : l ≠ []) : l.isEmpty = false := by
  cases l with
  | nil => exact absurd rfl h
  | cons a t => rfl

/-- C7: `fetch` never raises: a year whose remote call or parse raised
(`Except.error`) contributes an empty sequence while all other years are
still fetched and concatenated; and a year whose response carries no load
field (empty `load_vals`) likewise contributes nothing. -/
theorem c7_fetch_partial_failure :
    (∀ (ys₁ ys₂ : List (Except Unit ApiResponse)) (u : Unit),
        fetch_data_from_api (ys₁ ++ Except.error u :: ys₂) =
          fetch_data_from_api ys₁ ++ fetch_data_from_api ys₂) ∧
    (∀ r : ApiResponse, selectLoadVals r.source = [] →
        fetchYear (Except.ok r) = []) := by
  constructor
  · intro ys₁ ys₂ u
    simp [fetch_data_from_api, fetchYear]
  · intro r h
    simp [fetchYear, parseYearResponse, h]

/-- Witness for C7 at concrete inputs. -/
theorem c7_fetch_partial_failure_witness :
    fetch_data_from_api
        [Except.ok ⟨[⟨"Load", [7, 8]⟩], [10, 20]⟩, Except.error (),
          Except.ok ⟨[⟨"Load", [9]⟩], [30]⟩] =
      fetch_data_from_api [Except.ok ⟨[⟨"Load", [7, 8]⟩], [10, 20]⟩] ++
        fetch_data_from_api [Except.ok ⟨[⟨"Load", [9]⟩], [30]⟩] ∧
    fetchYear (Except.ok ⟨[], [3]⟩) = [] :=
  ⟨c7_fetch_partial_failure.1 [Except.ok ⟨[⟨"Load", [7, 8]⟩], [10, 20]⟩]
      [Except.ok ⟨[⟨"Load", [9]⟩], [30]⟩] (),
    c7_fetch_partial_failure.2 ⟨[], [3]⟩ rfl⟩

/-- C5: once `load_vals` is non-empty (a fuzzy candidate has been accepted),
processing any remaining candidates none of which is an exact allow-list
match leaves `load_vals` unchanged — later fuzzy matches never overwrite it. -/
theorem c5_fuzzy_first_acceptable_wins :
    ∀ (acc : List ℚ) (rest : List Entry), acc ≠ [] →
      (∀ e ∈ rest, excludedName (lowerName e.name) = true ∨
        exactName (lowerName e.name) = false) →
      selectAux acc rest = acc := by
  intro acc rest hacc hrest
  induction rest with
  | nil => rfl
  | cons e rest ih =>
    have he := hrest e (List.mem_cons_self e rest)
    have hrest₂ : ∀ x ∈ rest, excludedName (lowerName x.name) = true ∨
        exactName (lowerName x.name) = false :=
      fun x hx => hrest x (List.mem_cons_of_mem _ hx)
    by_cases hex : excludedName (lowerName e.name) = true
    · simp only [selectAux, hex, if_true]
      exact ih hrest₂
    · have hex' : excludedName (lowerName e.name) = false := by
        revert hex
        cases excludedName (lowerName e.name) <;> simp
      have hexact : exactName (lowerName e.name) = false := by
        rcases he with h | h
        · exact absurd h hex
        · exact h
      have hne : acc.isEmpty = false := isEmpty_false_of_ne hacc
      simp only [selectAux, hex', hexact, hne, Bool.false_eq_true, if_false]
      by_cases hf : fuzzyName (lowerName e.name) = true
      · simp only [hf, if_true]
        exact ih hrest₂
      · have hf' : fuzzyName (lowerName e.name) = false := by
          revert hf
          cases fuzzyName (lowerName e.name) <;> simp
        simp only [hf', Bool.false_eq_true, if_false]
        exact ih hrest₂

/-- Witness for C5 at a concrete input: `load_vals = [5]` already accepted,
two following consumption-like fuzzy candidates are ignored. -/
theorem c5_fuzzy_first_acceptable_wins_witness :
    selectAux [5] [⟨"Grid consumption", [7]⟩, ⟨"Load forecast", [9]⟩] = [5] :=
  c5_fuzzy_first_acceptable_wins [5] [⟨"Grid consumption", [7]⟩, ⟨"Load forecast", [9]⟩]
    (by decide) (by decide)

/-- C6: a candidate whose lower-cased name contains "residual", "pumped" or
"share" is always skipped; a non-excluded candidate whose name exactly
matches the allow-list is selected and the search stops (its data is
returned regardless of the remaining candidates and of any fuzzy value
accepted so far); consequently, among "Residual Load", "Load" and
"Pumped Storage Consumption" in any of the six orders, "Load" is selected
and the other two are ignored. -/
theorem c6_exact_allowlist_selection :
    (∀ (acc : List ℚ) (e : Entry) (rest : List Entry),
        excludedName (lowerName e.name) = true →
        selectAux acc (e :: rest) = selectAux acc rest) ∧
    (∀ (acc : List ℚ) (e : Entry) (rest : List Entry),
        excludedName (lowerName e.name) = false →
        exactName (lowerName e.name) = true →
        selectAux acc (e :: rest) = e.data) ∧
    (∀ (d₁ d₂ d₃ : List ℚ) (l : List Entry),
        l ∈ [[⟨"Residual Load", d₁⟩, ⟨"Load", d₂⟩, ⟨"Pumped Storage Consumption", d₃⟩],
          [⟨"Residual Load", d₁⟩, ⟨"Pumped Storage Consumption", d₃⟩, ⟨"Load", d₂⟩],
          [⟨"Load", d₂⟩, ⟨"Residual Load", d₁⟩, ⟨"Pumped Storage Consumption", d₃⟩],
          [⟨"Load", d₂⟩, ⟨"Pumped Storage Consumption", d₃⟩, ⟨"Residual Load", d₁⟩],
          [⟨"Pumped Storage Consumption", d₃⟩, ⟨"Residual Load", d₁⟩, ⟨"Load", d₂⟩],
          [⟨"Pumped Storage Consumption", d₃⟩, ⟨"Load", d₂⟩, ⟨"Residual Load", d₁⟩]] →
        selectLoadVals l = d₂) := by
  refine ⟨fun acc e rest h => ?_, fun acc e rest h₁ h₂ => ?_, fun d₁ d₂ d₃ l hl => ?_⟩
  · simp only [selectAux, h, if_true]
  · simp only [selectAux, h₁, h₂, Bool.false_eq_true, if_false, if_true]
  · simp only [List.mem_cons, List.not_mem_nil, or_false] at hl
    rcases hl with h | h | h | h | h | h <;> subst h <;> rfl

/-- Witness for C6: each component applied at a concrete input. -/
theorem c6_exact_allowlist_selection_witness :
    selectAux [9] [⟨"Load share", [1]⟩, ⟨"Solar", [2]⟩] =
        selectAux [9] [⟨"Solar", [2]⟩] ∧
    selectAux [9] [⟨"Total Load", [4]⟩, ⟨"Wind", [2]⟩] = [4] ∧
    selectLoadVals [⟨"Pumped Storage Consumption", [3]⟩, ⟨"Load", [2]⟩,
        ⟨"Residual Load", [1]⟩] = [2] :=
  ⟨c6_exact_allowlist_selection.1 [9] ⟨"Load share", [1]⟩ [⟨"Solar", [2]⟩] (by decide),
    c6_exact_allowlist_selection.2.1 [9] ⟨"Total Load", [4]⟩ [⟨"Wind", [2]⟩]
      (by decide) (by decide),
    c6_exact_allowlist_selection.2.2 [1] [2] [3]
      [⟨"Pumped Storage Consumption", [3]⟩, ⟨"Load", [2]⟩, ⟨"Residual Load", [1]⟩]
      (by decide)⟩

theorem dedupKeysAux_subset :
    ∀ (l : List Obs) (seen : List ℤ) (p : Obs), p ∈ dedupKeysAux seen l → p ∈ l := by
  intro l
  induction l with
  | nil => intro seen p h; cases h
  | cons q rest ih =>
    intro seen p h
    unfold dedupKeysAux at h
    by_cases hq : q.1 ∈ seen
    · rw [if_pos hq] at h
      exact List.mem_cons_of_mem _ (ih seen p h)
    · rw [if_neg hq] at h
      rcases List.mem_cons.mp h with rfl | h
      · exact List.mem_cons_self _ _
      · exact List.mem_cons_of_mem _ (ih _ p h)

theorem dedupKeysAux_keys_prop :
    ∀ (l : List Obs) (seen : List ℤ),
      ((dedupKeysAux seen l).map Prod.fst).Nodup ∧
        ∀ t ∈ (dedupKeysAux seen l).map Prod.fst, t ∉ seen := by
  intro l
  induction l with
  | nil => intro seen; exact ⟨List.nodup_nil, by simp [dedupKeysAux]⟩
  | cons p rest ih =>
    intro seen
    unfold dedupKeysAux
    by_cases hp : p.1 ∈ seen
    · rw [if_pos hp]
      exact ih seen
    · rw [if_neg hp]
      obtain ⟨h1, h2⟩ := ih (p.1 :: seen)
      refine ⟨?_, ?_⟩
      · simp only [List.map_cons, List.nodup_cons]
        exact ⟨fun hmem => (h2 _ hmem) (List.mem_cons_self _ _), h1⟩
      · intro t ht
        simp only [List.map_cons, List.mem_cons] at ht
        rcases ht with rfl | ht
        · exact hp
        · exact fun hseen => (h2 t ht) (List.mem_cons_of_mem _ hseen)

theorem dedupKeysAux_eq_self :
    ∀ (l : List Obs) (seen : List ℤ), (l.map Prod.fst).Nodup →
      (∀ p ∈ l, p.1 ∉ seen) → dedupKeysAux seen l = l := by
  intro l
  induction l with
  | nil => intro seen _ _; rfl
  | cons p rest ih =>
    intro seen hnd hseen
    simp only [List.map_cons, List.nodup_cons] at hnd
    unfold dedupKeysAux
    rw [if_neg (hseen p (List.mem_cons_self _ _))]
    congr 1
    refine ih (p.1 :: seen) hnd.2 ?_
    intro q hq hmem
    rcases List.mem_cons.mp hmem with h | h
    · exact hnd.1 (h ▸ List.mem_map_of_mem Prod.fst hq)
    · exact hseen q (List.mem_cons_of_mem _ hq) h

theorem dedupKeysAux_keeps_left :
    ∀ (l₁ l₂ : List Obs) (seen : List ℤ) (t : ℤ) (v : ℚ),
      (l₁.map Prod.fst).Nodup → (t, v) ∈ l₁ → t ∉ seen →
      (t, v) ∈ dedupKeysAux seen (l₁ ++ l₂) := by
  intro l₁
  induction l₁ with
  | nil => intro l₂ seen t v _ hmem _; cases hmem
  | cons p rest ih =>
    intro l₂ seen t v hnd hmem hseen
    simp only [List.map_cons, List.nodup_cons] at hnd
    rcases List.mem_cons.mp hmem with rfl | hmem
    · simp only [List.cons_append]
      unfold dedupKeysAux
      rw [if_neg hseen]
      exact List.mem_cons_self _ _
    · have hne : p.1 ≠ t := by
        intro h
        exact hnd.1 (h ▸ List.mem_map_of_mem Prod.fst hmem)
      simp only [List.cons_append]
      unfold dedupKeysAux
      by_cases hp : p.1 ∈ seen
      · rw [if_pos hp]
        exact ih l₂ seen t v hnd.2 hmem hseen
      · rw [if_neg hp]
        refine List.mem_cons_of_mem _ (ih l₂ (p.1 :: seen) t v hnd.2 hmem ?_)
        intro h
        rcases List.mem_cons.mp h with h | h
        · exact hne h.symm
        · exact hseen h

theorem keys_nodup_value_unique :
    ∀ (l : List Obs) (t : ℤ) (v w : ℚ), (l.map Prod.fst).Nodup →
      (t, v) ∈ l → (t, w) ∈ l → v = w := by
  intro l
  induction l with
  | nil => intro t v w _ hv _; cases hv
  | cons p rest ih =>
    intro t v w hnd hv hw
    simp only [List.map_cons, List.nodup_cons] at hnd
    rcases List.mem_cons.mp hv with hv₁ | hv₂
    · rcases List.mem_cons.mp hw with hw₁ | hw₂
      · rw [← hv₁] at hw₁
        exact (congrArg Prod.snd hw₁).symm
      · have ht : t ∈ List.map Prod.fst rest := by
          simpa using List.mem_map_of_mem Prod.fst hw₂
        exfalso
        apply hnd.1
        rw [← hv₁]
        exact ht
    · rcases List.mem_cons.mp hw with hw₁ | hw₂
      · have ht : t ∈ List.map Prod.fst rest := by
          simpa using List.mem_map_of_mem Prod.fst hv₂
        exfalso
        apply hnd.1
        rw [← hw₁]
        exact ht
      · exact ih t v w hnd.2 hv₂ hw₂

theorem mergeSeries_perm (a b : List Obs) :
    List.Perm (mergeSeries a b) (dedupKeys (a ++ b)) :=
  List.perm_insertionSort tsLe _

theorem mergeSeries_keys_nodup (a b : List Obs) :
    ((mergeSeries a b).map Prod.fst).Nodup :=
  (((mergeSeries_perm a b).map Prod.fst).nodup_iff).mpr (dedupKeysAux_keys_prop (a ++ b) []).1

theorem mergeSeries_sorted (a b : List Obs) :
    List.Sorted tsLe (mergeSeries a b) :=
  List.sorted_insertionSort tsLe _

theorem mem_mergeSeries {a b : List Obs} {p : Obs} :
    p ∈ mergeSeries a b ↔ p ∈ dedupKeys (a ++ b) :=
  (mergeSeries_perm a b).mem_iff

theorem syncCore_written_eq :
    ∀ (stored : List Obs) (today : ℤ) (f : ℤ → ℤ → List Obs) (s : List Obs),
      (syncCore stored today f).2.1 = some s →
      s = mergeSeries stored (f (computeStart (latestTimestamp stored)) today) := by
  intro stored today f s h
  simp only [syncCore] at h
  split at h
  · split at h
    · simp at h
    · simp only [Option.some.injEq] at h
      exact h.symm
  · simp at h

/-- C4: whenever a sync persists a merged series, that series has pairwise
distinct timestamps and is sorted by timestamp in non-decreasing order; and
the merge itself (concatenate, drop duplicate timestamps, sort) establishes
this invariant for every local series and every fetched sequence. -/
theorem c4_stored_series_invariant :
    (∀ (read : Option (Except Unit (List Obs))) (today : ℤ)
        (f : ℤ → ℤ → List Obs) (s : List Obs),
        (load_and_update_single_country read today f).written = some s →
        (s.map Prod.fst).Nodup ∧ List.Sorted tsLe s) ∧
    (∀ stored fetched : List Obs,
        ((mergeSeries stored fetched).map Prod.fst).Nodup ∧
          List.Sorted tsLe (mergeSeries stored fetched)) := by
  constructor
  · intro read today f s h
    have h' : (syncCore (readLocal read).1 today f).2.1 = some s := h
    rw [syncCore_written_eq _ _ _ _ h']
    exact ⟨mergeSeries_keys_nodup _ _, mergeSeries_sorted _ _⟩
  · intro stored fetched
    exact ⟨mergeSeries_keys_nodup _ _, mergeSeries_sorted _ _⟩

/-- Witness for C4: a concrete sync from an absent file that writes one row. -/
theorem c4_stored_series_invariant_witness :
    (([((1420070400 : ℤ), (1 : ℚ))].map Prod.fst).Nodup ∧
      List.Sorted tsLe [((1420070400 : ℤ), (1 : ℚ))]) :=
  c4_stored_series_invariant.1 none 1420070400 (fun _ _ => [(1420070400, 1)])
    [(1420070400, 1)] rfl

/-- C10: when the stored series and the fetched data collide on a timestamp,
the merged series keeps the stored value (first occurrence in
`stored ++ fetched` wins under `drop_duplicates`) and holds no other value at
that timestamp. -/
theorem c10_merge_keeps_stored_value :
    ∀ (stored fetched : List Obs) (t : ℤ) (v : ℚ),
      (stored.map Prod.fst).Nodup → (t, v) ∈ stored →
      (t, v) ∈ mergeSeries stored fetched ∧
        ∀ w : ℚ, (t, w) ∈ mergeSeries stored fetched → w = v := by
  intro stored fetched t v hnd hmem
  have hkeep : (t, v) ∈ mergeSeries stored fetched :=
    mem_mergeSeries.mpr (dedupKeysAux_keeps_left stored fetched [] t v hnd hmem (by simp))
  refine ⟨hkeep, fun w hw => ?_⟩
  exact keys_nodup_value_unique _ t w v (mergeSeries_keys_nodup stored fetched) hw hkeep

/-- Witness for C10: stored value `1` at timestamp `10` survives a fetched
collision `(10, 99)`. -/
theorem c10_merge_keeps_stored_value_witness :
    ((10 : ℤ), (1 : ℚ)) ∈ mergeSeries [(10, 1), (20, 2)] [(10, 99), (30, 3)] ∧
      ∀ w : ℚ, ((10 : ℤ), w) ∈ mergeSeries [(10, 1), (20, 2)] [(10, 99), (30, 3)] → w = 1 :=
  c10_merge_keeps_stored_value [(10, 1), (20, 2)] [(10, 99), (30, 3)] 10 1
    (by decide) (by decide)

theorem listMax_ge :
    ∀ (l : List ℤ) (m : ℤ), listMax l = some m → ∀ x ∈ l, x ≤ m := by
  intro l
  induction l with
  | nil => intro m hm x hx; cases hx
  | cons a xs ih =>
    intro m hm x hx
    cases hxs : listMax xs with
    | none =>
      have hxsnil : xs = [] := by
        cases xs with
        | nil => rfl
        | cons b ys => simp [listMax] at hxs
      subst hxsnil
      simp [listMax] at hm
      rcases List.mem_cons.mp hx with rfl | hx
      · omega
      · cases hx
    | some mx =>
      have hm' : m = max a mx := by
        simp [listMax, hxs] at hm
        omega
      rcases List.mem_cons.mp hx with rfl | hx
      · rw [hm']
        exact le_max_left _ _
      · rw [hm']
        exact le_trans (ih mx hxs x hx) (le_max_right _ _)

theorem latestTimestamp_ge {s : List Obs} {last : ℤ}
    (h : latestTimestamp s = some last) : ∀ p ∈ s, p.1 ≤ last := by
  intro p hp
  exact listMax_ge (s.map Prod.fst) last h p.1 (List.mem_map_of_mem Prod.fst hp)

theorem mergeSeries_length_disjoint (s newData : List Obs)
    (h₁ : (s.map Prod.fst).Nodup) (h₂ : (newData.map Prod.fst).Nodup)
    (hd : List.Disjoint (s.map Prod.fst) (newData.map Prod.fst)) :
    (mergeSeries s newData).length = s.length + newData.length := by
  have hnd : ((s ++ newData).map Prod.fst).Nodup := by
    rw [List.map_append]
    exact List.Nodup.append h₁ h₂ hd
  have heq : dedupKeys (s ++ newData) = s ++ newData :=
    dedupKeysAux_eq_self (s ++ newData) [] hnd (by simp)
  calc (mergeSeries s newData).length
      = (dedupKeys (s ++ newData)).length := (mergeSeries_perm s newData).length_eq
    _ = (s ++ newData).length := by rw [heq]
    _ = s.length + newData.length := List.length_append _ _

theorem syncCore_fetched (stored : List Obs) (today : ℤ) (f : ℤ → ℤ → List Obs) :
    (syncCore stored today f).2.2 =
      if computeStart (latestTimestamp stored) ≤ today
      then some (computeStart (latestTimestamp stored), today) else none := by
  simp only [syncCore]
  split_ifs with h₁ h₂ <;> rfl

/-- C2: with a non-empty local store of latest timestamp `last`, the fetch
range is exactly `[last + 1 day, today]` and no network call happens when
that start exceeds `today`; with no local data (missing file or empty parsed
series) the range starts at the 2015-01-01 epoch; and when the fetched
observations are all strictly newer than `last` (with distinct timestamps),
the merged series length is exactly the old length plus the fetch length. -/
theorem c2_gap_fetch_range :
    ∀ (s : List Obs) (today : ℤ) (f : ℤ → ℤ → List Obs) (last : ℤ),
      latestTimestamp s = some last →
      ((load_and_update_single_country (some (Except.ok s)) today f).fetched =
          if last + oneDay ≤ today then some (last + oneDay, today) else none) ∧
      ((load_and_update_single_country none today f).fetched =
          if epoch2015 ≤ today then some (epoch2015, today) else none) ∧
      ((load_and_update_single_country (some (Except.ok [])) today f).fetched =
          if epoch2015 ≤ today then some (epoch2015, today) else none) ∧
      (last + oneDay ≤ today →
        (∀ p ∈ f (last + oneDay) today, last < p.1) →
        ((f (last + oneDay) today).map Prod.fst).Nodup →
        (s.map Prod.fst).Nodup →
        (load_and_update_single_country (some (Except.ok s)) today f).df.length =
          s.length + (f (last + oneDay) today).length) := by
  intro s today f last h
  refine ⟨?_, ?_, ?_, ?_⟩
  · show (syncCore s today f).2.2 = _
    rw [syncCore_fetched, h]
    rfl
  · show (syncCore ([] : List Obs) today f).2.2 = _
    rw [syncCore_fetched]
    rfl
  · show (syncCore ([] : List Obs) today f).2.2 = _
    rw [syncCore_fetched]
    rfl
  · intro hle hgt hnd₂ hnd₁
    show (syncCore s today f).1.length = _
    simp only [syncCore, h, computeStart]
    rw [if_pos hle]
    by_cases he : (f (last + oneDay) today).isEmpty = true
    · have hfe : f (last + oneDay) today = [] := by
        cases hfv : f (last + oneDay) today with
        | nil => rfl
        | cons q qs => rw [hfv] at he; cases he
      rw [if_pos he]
      simp [hfe]
    · rw [if_neg he]
      show (mergeSeries s (f (last + oneDay) today)).length = _
      refine mergeSeries_length_disjoint s _ hnd₁ hnd₂ ?_
      intro a has hanew
      obtain ⟨p, hp, hpa⟩ := List.mem_map.mp has
      obtain ⟨q, hq, hqa⟩ := List.mem_map.mp hanew
      have h₁ : p.1 ≤ last := latestTimestamp_ge h p hp
      have h₂ : last < q.1 := hgt q hq
      omega

/-- Witness for C2 at a concrete input: local series ends at `0`, today is
one day later, one new observation arrives at `86400`. -/
theorem c2_gap_fetch_range_witness :
    ((load_and_update_single_country (some (Except.ok [((0 : ℤ), (1 : ℚ))])) 86400
        (fun _ _ => [(86400, 2)])).fetched =
      if (0 : ℤ) + oneDay ≤ 86400 then some ((0 : ℤ) + oneDay, 86400) else none) ∧
    ((load_and_update_single_country none 86400
        (fun _ _ => [((86400 : ℤ), (2 : ℚ))])).fetched =
      if epoch2015 ≤ (86400 : ℤ) then some (epoch2015, (86400 : ℤ)) else none) ∧
    ((load_and_update_single_country (some (Except.ok [])) 86400
        (fun _ _ => [((86400 : ℤ), (2 : ℚ))])).fetched =
      if epoch2015 ≤ (86400 : ℤ) then some (epoch2015, (86400 : ℤ)) else none) ∧
    (load_and_update_single_country (some (Except.ok [((0 : ℤ), (1 : ℚ))])) 86400
        (fun _ _ => [(86400, 2)])).df.length = 2 := by
  have h := c2_gap_fetch_range [((0 : ℤ), (1 : ℚ))] 86400 (fun _ _ => [(86400, 2)]) 0 rfl
  exact ⟨h.1, h.2.1, h.2.2.1,
    h.2.2.2 (by decide) (by decide) (by decide) (by decide)⟩

/-- C3: a second sync whose remote fetch yields no data (or which makes no
fetch at all) never reaches `to_csv`, so the per-entity file is byte-identical
to its state after the first sync. -/
theorem c3_sync_idempotent_file :
    ∀ (before : Option (List Obs)) (read₁ : Option (Except Unit (List Obs)))
      (today₁ today₂ : ℤ) (f₁ f₂ : ℤ → ℤ → List Obs),
      (∀ a b : ℤ, f₂ a b = []) →
      fileAfter (fileAfter before (load_and_update_single_country read₁ today₁ f₁))
          (load_and_update_single_country
            (Option.map Except.ok
              (fileAfter before (load_and_update_single_country read₁ today₁ f₁)))
            today₂ f₂) =
        fileAfter before (load_and_update_single_country read₁ today₁ f₁) := by
  intro before read₁ today₁ today₂ f₁ f₂ hf
  have hw : ∀ (read₂ : Option (Except Unit (List Obs))),
      (load_and_update_single_country read₂ today₂ f₂).written = none := by
    intro read₂
    show (syncCore (readLocal read₂).1 today₂ f₂).2.1 = none
    simp only [syncCore, hf, List.isEmpty_nil, if_true]
    split <;> rfl
  simp only [fileAfter]
  rw [hw]

/-- Witness for C3 at concrete inputs: first sync writes one row, second
sync fetches nothing and leaves the file as written. -/
theorem c3_sync_idempotent_file_witness :
    fileAfter
        (fileAfter none (load_and_update_single_country none 1420070400
          (fun _ _ => [((1420070400 : ℤ), (1 : ℚ))])))
        (load_and_update_single_country
          (Option.map Except.ok
            (fileAfter none (load_and_update_single_country none 1420070400
              (fun _ _ => [((1420070400 : ℤ), (1 : ℚ))]))))
          1420156800 (fun _ _ => [])) =
      fileAfter none (load_and_update_single_country none 1420070400
        (fun _ _ => [((1420070400 : ℤ), (1 : ℚ))])) :=
  c3_sync_idempotent_file none none 1420070400 1420156800
    (fun _ _ => [((1420070400 : ℤ), (1 : ℚ))]) (fun _ _ => []) (fun _ _ => rfl)

theorem load_and_update_csv_benign :
    ∀ (read : Option (Except Unit (List Obs))) (today : ℤ) (f : ℤ → ℤ → List Obs),
      load_and_update_csv (embedRead read) today f =
        Except.ok ⟨Frame.parsed (load_and_update_single_country read today f).df,
          (load_and_update_single_country read today f).written,
          (load_and_update_single_country read today f).fetched,
          (load_and_update_single_country read today f).errorReported⟩ := by
  intro read today f
  cases read with
  | none =>
    show load_and_update_csv CsvRead.missing today f = _
    simp only [load_and_update_csv, readCsv, lastStored,
      load_and_update_single_country, readLocal, syncCore]
    split_ifs with h₁ h₂ <;> rfl
  | some e =>
    cases e with
    | error u =>
      show load_and_update_csv CsvRead.readError today f = _
      simp only [load_and_update_csv, readCsv, lastStored,
        load_and_update_single_country, readLocal, syncCore]
      split_ifs with h₁ h₂ <;> rfl
    | ok s =>
      show load_and_update_csv (CsvRead.ok s) today f = _
      simp only [load_and_update_csv, readCsv, lastStored,
        load_and_update_single_country, readLocal, syncCore]
      split_ifs with h₁ h₂ <;> rfl

/-- C8: the modelled code at the failing input.  (i) A failure of
`pd.read_csv` itself is recovered exactly as the claim describes: the sync
reports the error, starts from the empty frame and does a full resync from
the 2015-01-01 epoch, returning normally.  (ii) But when `read_csv`
succeeds and the timestamp parse on line 119 raises, `full_df` has already
been rebound to the raw frame: with new remote data arriving, the merge
reaches `sort_values` over mixed `str`/`Timestamp` values and raises an
uncaught `TypeError` — fatal, contradicting the claim.  (iii) With no new
remote data, the sync returns the non-empty raw frame — not an empty
in-memory series — which the caller's `.dt.tz_convert` (line 218) cannot
process. -/
theorem c8_parse_failure_fatal :
    load_and_update_csv CsvRead.readError 1420070400
        (fun _ _ => [(1420070400, 1)]) =
      Except.ok ⟨Frame.parsed [((1420070400 : ℤ), (1 : ℚ))],
        some [(1420070400, 1)], some (epoch2015, 1420070400), true⟩ ∧
    load_and_update_csv (CsvRead.parseError [("2015-01-01x", 5)]) 1420070400
        (fun _ _ => [(1420070400, 1)]) = Except.error () ∧
    load_and_update_csv (CsvRead.parseError [("2015-01-01x", 5)]) 1420070400
        (fun _ _ => []) =
      Except.ok ⟨Frame.raw [("2015-01-01x", 5)], none,
        some (epoch2015, 1420070400), true⟩ := by
  refine ⟨rfl, rfl, rfl⟩

/-- C1: behaviour of `load_eu_aggregated_data` at the failing input.  Entity A
has a sample only in hour bucket 0; entity B has samples in buckets 0 and 1
(value 5 in bucket 1).  The aggregate is present at hour 0 (both entities
present, 1 + 3 = 4) but *missing* at hour 1 although B's resampled value
there is 5: Python's builtin `sum(df_list)` folds pandas `+`, which yields
NaN whenever any operand is missing, not the `min_count=1` semantics
("NaN only when data is entirely missing") that the code's own comment on
line 182 claims and that the specified behaviour requires. -/
theorem c1_aggregate_drops_partial_hour :
    load_eu_aggregated_data
        [some (Except.ok [((0 : ℤ), (1 : ℚ))]),
          some (Except.ok [(0, 3), (3600, 5)])] 1 = none ∧
    resample1h [((0 : ℤ), (3 : ℚ)), (3600, 5)] 1 = some 5 ∧
    load_eu_aggregated_data
        [some (Except.ok [((0 : ℤ), (1 : ℚ))]),
          some (Except.ok [(0, 3), (3600, 5)])] 0 = some 4 := by
  refine ⟨?_, ?_, ?_⟩ <;> with_unfolding_all decide

theorem ffillAux_getD_some :
    ∀ (l : List (Option ℚ)) (c : Option ℚ) (i : ℕ) (v : ℚ),
      l.getD i none = some v → (ffillAux c l).getD i none = some v := by
  intro l
  induction l with
  | nil =>
    intro c i v h
    rw [List.getD_nil] at h
    cases h
  | cons x xs ih =>
    intro c i v h
    cases i with
    | zero =>
      rw [List.getD_cons_zero] at h
      subst h
      rfl
    | succ n =>
      rw [List.getD_cons_succ] at h
      cases x with
      | none =>
        show (c :: ffillAux c xs).getD (n + 1) none = some v
        rw [List.getD_cons_succ]
        exact ih c n v h
      | some w =>
        show (some w :: ffillAux (some w) xs).getD (n + 1) none = some v
        rw [List.getD_cons_succ]
        exact ih (some w) n v h

/-- C9 (amended): when the rolling-mean daily sequence has present values
`a` at position `t` and `b ≠ 0` at position `t - 364` (and `364 ≤ t` is in
range), the `Veränderung_Vorjahr_Prozent` column at `t` equals
`(a / b - 1) * 100`.  The missing-operand half of the original claim is
false: pandas 2.x `pct_change` forward-fills missing operands by default
(`fill_method='pad'`), see the counterexample. `b ≠ 0` keeps the statement
in the region where exact division agrees with pandas' float division. -/
theorem c9_yoy_formula :
    ∀ (l : List (Option ℚ)) (t : ℕ) (a b : ℚ),
      364 ≤ t → t < l.length →
      l.getD t none = some a → l.getD (t - 364) none = some b → b ≠ 0 →
      veraenderungVorjahrProzentAt l t = some ((a / b - 1) * 100) := by
  intro l t a b ht hlen ha hb hb0
  have ha' : (ffill l).getD t none = some a := ffillAux_getD_some l none t a ha
  have hb' : (ffill l).getD (t - 364) none = some b :=
    ffillAux_getD_some l none (t - 364) b hb
  unfold veraenderungVorjahrProzentAt pctChange364At
  rw [if_neg (by omega)]
  rw [show (ffill l).getD t none = some a from ha',
    show (ffill l).getD (t - 364) none = some b from hb']
  rfl

/-- Witness for C9: rolling mean 50 at day 364 against 45 at day 0 gives
`(50/45 - 1) * 100 = 100/9 ≈ +11.11 %`. -/
theorem c9_yoy_formula_witness :
    veraenderungVorjahrProzentAt (List.replicate 364 (some 45) ++ [some 50]) 364 =
      some ((50 / 45 - 1) * 100) :=
  c9_yoy_formula (List.replicate 364 (some 45) ++ [some 50]) 364 50 45
    (by decide) (by decide) (by with_unfolding_all decide)
    (by with_unfolding_all decide) (by with_unfolding_all decide)

/-- C9 counterexample to the claim as stated: the sequence is missing its
value at position 1 = t - 364, yet the YoY at t = 365 is *present* — pandas
`pct_change`'s default `fill_method='pad'` fills the missing operand with
the value at position 0 — contradicting "undefined (missing) whenever either
operand is missing". -/
theorem c9_missing_operand_not_missing :
    (([some 45, none] ++ List.replicate 363 (some 45) ++ [some 50] :
        List (Option ℚ)).getD 1 none = none) ∧
    veraenderungVorjahrProzentAt
        ([some 45, none] ++ List.replicate 363 (some 45) ++ [some 50]) 365 =
      some ((50 / 45 - 1) * 100) := by
  constructor
  · rfl
  · with_unfolding_all decide
